import Mathlib

/-!
Shallow embedding of the type-directed binder of go-eth-abi (src/parser.go):
the entry point `Parse` and the three mutually recursive binders
`parseStruct`, `parseSlice`, `parsePointer`, together with the fragment of
Go dynamic typing (reflect kinds, type strings, value conversion,
assignability) that those functions use.

Modelling conventions, kept throughout:
* Go machine integers are `Int` together with an explicit truncation
  modulo 2^width (`NumTy.conv`); the platform is 64-bit, `big.Word` is
  modelled as `uint`.
* A Go `error` return and a runtime panic are distinguished by the
  `Res` type (`Res.err` vs `Res.panic`).  Panic messages are
  representative, not byte-for-byte the Go runtime texts.
* The Go functions receive pointers to the values they populate; the
  embedding passes the pointee's type and value directly and returns the
  updated value, so the nil-pointer entry checks of the source always
  pass for the calls the embedding makes.  `parsePointer` additionally
  carries the addressability of the `reflect.Value` it receives, because
  the source calls `.Addr()` on it in one branch.
* Go assignability is modelled as type identity, plus assignment of any
  value to an empty-interface target; the decoded nodes produced by the
  abi decoder only carry the dynamic types listed in `Val`.
* Strings are Lean `String`s; the byte-level hex helpers of
  `github.com/ethereum/go-ethereum/common` are reproduced on the
  character list of the string (exact for ASCII data, which is the only
  data hex parsing accepts anyway).
-/

/-- The Go numeric types the binder handles (64-bit platform). -/
inductive NumTy where
  | int | int8 | int16 | int32 | int64
  | uint | uint8 | uint16 | uint32 | uint64
deriving DecidableEq, Repr

/-- Bit width of a Go numeric type (64-bit platform). -/
def NumTy.bits : NumTy → Nat
  | .int8 => 8 | .uint8 => 8
  | .int16 => 16 | .uint16 => 16
  | .int32 => 32 | .uint32 => 32
  | _ => 64

/-- Signedness of a Go numeric type. -/
def NumTy.signed : NumTy → Bool
  | .int => true | .int8 => true | .int16 => true | .int32 => true | .int64 => true
  | _ => false

/-- `reflect.Type.String()` of a numeric type. -/
def NumTy.goStr : NumTy → String
  | .int => "int" | .int8 => "int8" | .int16 => "int16" | .int32 => "int32" | .int64 => "int64"
  | .uint => "uint" | .uint8 => "uint8" | .uint16 => "uint16" | .uint32 => "uint32" | .uint64 => "uint64"

/-- Go's value conversion between numeric types: truncate to the target
width, reading the low bits back with the target's signedness. -/
def NumTy.conv (w : NumTy) (n : Int) : Int :=
  if w.signed then (n + 2 ^ (w.bits - 1)) % 2 ^ w.bits - 2 ^ (w.bits - 1)
  else n % 2 ^ w.bits

/-- The Go types that can occur as binding targets or as dynamic types of
decoded nodes.  `struct` carries the `reflect.Type.String()` form of the
type name (for example "big.Int"), the field names and the field types;
`address` is the named 20-byte array type `common.Address`; `iface` is
the empty interface (the element type of the decoded node lists). -/
inductive Ty where
  | bool
  | num (w : NumTy)
  | string
  | iface
  | address
  | struct (goStr : String) (fieldNames : List String) (fields : List Ty)
  | slice (elem : Ty)
  | array (len : Nat) (elem : Ty)
  | ptr (elem : Ty)

/-- The `reflect.Kind` of a type. -/
inductive Kind where
  | bool | int | string | iface | struct | slice | array | ptr
deriving DecidableEq, Repr

/-- `reflect.Type.Kind()`.  `common.Address` is a (named) array type. -/
def Ty.kind : Ty → Kind
  | .bool => .bool
  | .num _ => .int
  | .string => .string
  | .iface => .iface
  | .address => .array
  | .struct _ _ _ => .struct
  | .slice _ => .slice
  | .array _ _ => .array
  | .ptr _ => .ptr

/-- `reflect.Type.String()`. -/
def Ty.toGoString : Ty → String
  | .bool => "bool"
  | .num w => w.goStr
  | .string => "string"
  | .iface => "interface \x7b\x7d"
  | .address => "common.Address"
  | .struct s _ _ => s
  | .slice e => "[]" ++ e.toGoString
  | .array n e => "[" ++ toString n ++ "]" ++ e.toGoString
  | .ptr e => "*" ++ e.toGoString

/-- `reflect.Type.Name()`: the bare name of a named type ("Int" for
`big.Int`, "Address" for `common.Address`), and the empty string for
unnamed types (slices, arrays of the model, pointers, interfaces). -/
def Ty.name : Ty → String
  | .bool => "bool"
  | .num w => w.goStr
  | .string => "string"
  | .iface => ""
  | .address => "Address"
  | .struct s _ _ => (s.splitOn ".").getLastD s
  | .slice _ => ""
  | .array _ _ => ""
  | .ptr _ => ""

mutual
/-- Structural type equality, mirroring `reflect` type identity. -/
def Ty.beq : Ty → Ty → Bool
  | .bool, .bool => true
  | .num w, .num w' => w == w'
  | .string, .string => true
  | .iface, .iface => true
  | .address, .address => true
  | .struct s ns fs, .struct s' ns' fs' => s == s' && ns == ns' && Ty.beqList fs fs'
  | .slice e, .slice e' => Ty.beq e e'
  | .array n e, .array n' e' => n == n' && Ty.beq e e'
  | .ptr e, .ptr e' => Ty.beq e e'
  | _, _ => false

/-- Pointwise `Ty.beq` on field lists. -/
def Ty.beqList : List Ty → List Ty → Bool
  | [], [] => true
  | t :: ts, t' :: ts' => Ty.beq t t' && Ty.beqList ts ts'
  | _, _ => false
end

/-- A Go dynamic value: either a decoded node handed to the binder
(atomic value, pre-typed `*big.Int`, byte slice, or nested node list of
dynamic type "[]interface") or a target value being populated (struct,
slice, array, pointer). -/
inductive Val where
  | bool (b : Bool)
  | num (w : NumTy) (n : Int)
  | str (s : String)
  | bytes (bs : List Nat)
  | bigIntPtr (n : Int)
  | address (bs : List Nat)
  | addressPtr (bs : List Nat)
  | list (xs : List Val)
  | struct (fields : List Val)
  | slice (elems : List Val)
  | array (elems : List Val)
  | ptr (v : Option Val)

mutual
/-- Size of a value, used as the termination measure of the binder: only
nested node lists count, every other value has size one. -/
def Val.size : Val → Nat
  | .list xs => 1 + Val.sizeList xs
  | _ => 1

/-- Total size of a list of values. -/
def Val.sizeList : List Val → Nat
  | [] => 0
  | x :: xs => Val.size x + Val.sizeList xs
end

mutual
/-- Size of a type, used as the termination measure of the binder. -/
def Ty.size : Ty → Nat
  | .struct _ _ fs => 1 + Ty.sizeList fs
  | .slice e => 1 + Ty.size e
  | .array _ e => 1 + Ty.size e
  | .ptr e => 1 + Ty.size e
  | _ => 1

/-- Total size of a list of types. -/
def Ty.sizeList : List Ty → Nat
  | [] => 0
  | t :: ts => Ty.size t + Ty.sizeList ts
end

mutual
/-- `reflect.New`: the zero value of a type (nil pointers, empty slices,
zero numbers, zero-filled arrays and addresses). -/
def Ty.zero : Ty → Val
  | .bool => .bool false
  | .num w => .num w 0
  | .string => .str ""
  | .iface => .list []
  | .address => .address (List.replicate 20 0)
  | .struct _ _ fs => .struct (Ty.zeroList fs)
  | .slice _ => .slice []
  | .array n e => .array (List.replicate n (Ty.zero e))
  | .ptr _ => .ptr none

/-- Zero values of a list of field types. -/
def Ty.zeroList : List Ty → List Val
  | [] => []
  | t :: ts => Ty.zero t :: Ty.zeroList ts
end

/-- The struct type `big.Int` (`neg bool; abs []Word`), one of the two
special leaf kinds; only its name and its field count matter to the
binder. -/
def bigIntTy : Ty := .struct "big.Int" ["neg", "abs"] [.bool, .slice (.num .uint)]

/-- `reflect.TypeOf` on the dynamic values the decoder produces.  A
decoded node list is a value of type "[]interface".  The target-only
shapes (bare struct/slice/array/ptr values) are never produced by the
decoder; they are mapped to the opaque interface type. -/
def Val.dynTy : Val → Ty
  | .bool _ => .bool
  | .num w _ => .num w
  | .str _ => .string
  | .bytes _ => .slice (.num .uint8)
  | .bigIntPtr _ => .ptr bigIntTy
  | .address _ => .address
  | .addressPtr _ => .ptr .address
  | .list _ => .slice .iface
  | .struct _ => .iface
  | .slice _ => .iface
  | .array _ => .iface
  | .ptr _ => .iface

/-- The `%T` rendering of a dynamic value's type. -/
def Val.goTypeString (v : Val) : String := v.dynTy.toGoString

/-- `strings.TrimPrefix(s, "*")`, as used on field type strings. -/
def stripStar (s : String) : String :=
  match s.data with
  | '*' :: rest => String.mk rest
  | _ => s

/-- `encoding/hex.fromHexChar`. -/
def fromHexChar (c : Char) : Option Nat :=
  if '0' ≤ c ∧ c ≤ '9' then some (c.toNat - '0'.toNat)
  else if 'a' ≤ c ∧ c ≤ 'f' then some (c.toNat - 'a'.toNat + 10)
  else if 'A' ≤ c ∧ c ≤ 'F' then some (c.toNat - 'A'.toNat + 10)
  else none

/-- `encoding/hex.Decode` as used by `common.Hex2Bytes`: decode pairs of
hex digits, stopping at the first invalid digit (the error it reports is
discarded by `Hex2Bytes`, which keeps the prefix decoded so far). -/
def hexPairs : List Char → List Nat
  | c1 :: c2 :: rest =>
    match fromHexChar c1, fromHexChar c2 with
    | some a, some b => (16 * a + b) :: hexPairs rest
    | _, _ => []
  | _ => []

/-- `common.FromHex`: strip an optional 0x/0X prefix, left-pad odd-length
input with one zero digit, then decode hex pairs. -/
def fromHex (s : String) : List Nat :=
  let cs1 := match s.data with
    | '0' :: 'x' :: rest => rest
    | '0' :: 'X' :: rest => rest
    | cs => cs
  let cs2 := if cs1.length % 2 = 1 then '0' :: cs1 else cs1
  hexPairs cs2

/-- `common.BytesToAddress` / `Address.SetBytes`: keep the last 20 bytes,
left-padding with zeros when shorter. -/
def bytesToAddress (bs : List Nat) : List Nat :=
  let b := if bs.length > 20 then bs.drop (bs.length - 20) else bs
  List.replicate (20 - b.length) 0 ++ b

/-- `common.HexToAddress`. -/
def hexToAddress (s : String) : List Nat := bytesToAddress (fromHex s)

/-- Result of a binder call: a value (the updated target), a returned Go
`error`, or a runtime panic. -/
inductive Res (α : Type) where
  | ok (a : α)
  | err (msg : String)
  | panic (msg : String)

/-- Sequencing that propagates errors and panics, as Go's early returns
do. -/
def Res.bind : Res α → (α → Res β) → Res β
  | .ok a, f => f a
  | .err e, _ => .err e
  | .panic p, _ => .panic p

/-- Map over a successful result. -/
def Res.map (f : α → β) : Res α → Res β
  | .ok a => .ok (f a)
  | .err e => .err e
  | .panic p => .panic p

/-- `fmt.Errorf("ctx: %w", err)`: annotate a returned error with context;
successes and panics pass through unchanged. -/
def Res.wrapErr (ctx : String) : Res α → Res α
  | .err e => .err (ctx ++ ": " ++ e)
  | .ok a => .ok a
  | .panic p => .panic p

/-- `reflect.CanConvert` restricted to the pairs that can reach the
scalar conversion at parser.go:96: numeric to numeric, numeric to string
(rune conversion), byte slice to string, and anything to the empty
interface. -/
def canConvert : Ty → Ty → Bool
  | .num _, .num _ => true
  | .num _, .string => true
  | .slice (.num .uint8), .string => true
  | _, .iface => true
  | _, _ => false

/-- Go's `string(r)` for an integer `r`: the one-rune string, or the
replacement character for values outside the valid code point range. -/
def goRuneString (n : Int) : String :=
  if 0 ≤ n ∧ n.toNat < 55296 ∨ 57343 < n ∧ n ≤ 1114111 then
    String.mk [Char.ofNat n.toNat]
  else "�"

/-- `reflect.Value.Convert` on the pairs `canConvert` accepts.  Go's byte
slice to string conversion copies the bytes; it is modelled per byte
(exact for ASCII payloads). -/
def convertVal (v : Val) (t : Ty) : Val :=
  match v, t with
  | .num _ n, .num w => .num w (w.conv n)
  | .num _ n, .string => .str (goRuneString n)
  | .bytes bs, .string => .str (String.mk (bs.map Char.ofNat))
  | v, _ => v

def Val.size_pos (v : Val) : 1 ≤ v.size := by
  cases v <;> simp [Val.size]

def Val.sizeList_cons (x : Val) (xs : List Val) :
    Val.sizeList (x :: xs) = x.size + Val.sizeList xs := by
  simp [Val.sizeList]

def Val.sizeList_nil : Val.sizeList [] = 0 := by
  simp [Val.sizeList]

def Val.size_list_eq (xs : List Val) : (Val.list xs).size = 1 + Val.sizeList xs := by
  simp [Val.size]

def Val.size_head_le (x : Val) (xs : List Val) : x.size ≤ Val.sizeList (x :: xs) := by
  rw [Val.sizeList_cons]; exact Nat.le_add_right _ _

def Val.sizeList_tail_lt (x : Val) (xs : List Val) :
    Val.sizeList xs < Val.sizeList (x :: xs) := by
  rw [Val.sizeList_cons]; have := Val.size_pos x; omega

def Val.sizeList_lt_size_list (xs : List Val) : Val.sizeList xs < (Val.list xs).size := by
  rw [Val.size_list_eq]; omega

def Val.sizeList_singleton (x : Val) : Val.sizeList [x] = x.size := by
  rw [Val.sizeList_cons, Val.sizeList_nil]; omega

def Ty.size_pos (t : Ty) : 1 ≤ t.size := by
  cases t <;> simp [Ty.size]

def Ty.sizeList_cons (t : Ty) (ts : List Ty) :
    Ty.sizeList (t :: ts) = t.size + Ty.sizeList ts := by
  simp [Ty.sizeList]

def Ty.size_struct (s : String) (ns : List String) (fs : List Ty) :
    (Ty.struct s ns fs).size = 1 + Ty.sizeList fs := by
  simp [Ty.size]

def Ty.size_ptr (e : Ty) : (Ty.ptr e).size = 1 + e.size := by
  simp [Ty.size]

def Ty.size_lt_ptr (e : Ty) : e.size < (Ty.ptr e).size := by
  rw [Ty.size_ptr]; omega

def Ty.sizeList_lt_size_struct (s : String) (ns : List String) (fs : List Ty) :
    Ty.sizeList fs < (Ty.struct s ns fs).size := by
  rw [Ty.size_struct]; omega

def Ty.size_head_le (t : Ty) (ts : List Ty) : t.size ≤ Ty.sizeList (t :: ts) := by
  rw [Ty.sizeList_cons]; exact Nat.le_add_right _ _

def Ty.sizeList_tail_lt (t : Ty) (ts : List Ty) :
    Ty.sizeList ts < Ty.sizeList (t :: ts) := by
  rw [Ty.sizeList_cons]; have := Ty.size_pos t; omega

/-- Introduction form for the lexicographic triple ordering used as the
binder's termination measure. -/
def lexTriple {a b c a' b' c' : Nat}
    (h : a < a' ∨ a = a' ∧ (b < b' ∨ b = b' ∧ c < c')) :
    Prod.Lex (· < ·) (Prod.Lex (· < ·) (· < ·)) (a, b, c) (a', b', c') := by
  rcases h with h | ⟨rfl, h⟩
  · exact Prod.Lex.left _ _ h
  · rcases h with h | ⟨rfl, h⟩
    · exact Prod.Lex.right _ (Prod.Lex.left _ _ h)
    · exact Prod.Lex.right _ (Prod.Lex.right _ h)

/-- Strict decrease in the first measure component. -/
def lexLt {a a' : Nat} {p p' : Nat × Nat} (h : a < a') :
    Prod.Lex (· < ·) (Prod.Lex (· < ·) (· < ·)) (a, p) (a', p') :=
  Prod.Lex.left _ _ h

/-- Equal first component, strict decrease in the second. -/
def lexB {a b b' c c' : Nat} (hb : b < b') :
    Prod.Lex (· < ·) (Prod.Lex (· < ·) (· < ·)) (a, b, c) (a, b', c') := by
  apply lexTriple; omega

/-- Non-strict first and second components, strict third. -/
def lexLe {a a' b b' c c' : Nat} (ha : a ≤ a') (hb : b ≤ b') (hc : c < c') :
    Prod.Lex (· < ·) (Prod.Lex (· < ·) (· < ·)) (a, b, c) (a', b', c') := by
  apply lexTriple; omega

/-- parser.go lines 69-103 without the pointer sub-branch: binding one
scalar struct field.  The dead `common.Address` comparison of line 89 is
kept (a non-pointer, non-array field type never has that name).  Line 95:
when the dynamic type differs from the field type, `CanConvert` decides
between `Convert`-and-assign and the conversion error of line 99. -/
def scalarField (node : Val) (fty : Ty) : Res Val :=
  if stripStar fty.toGoString = "common.Address" then
    match node with
    | .str s => .ok (.address (hexToAddress s))
    | _ => .panic "interface conversion"
  else if Ty.beq node.dynTy fty then .ok node
  else if canConvert node.dynTy fty then .ok (convertVal node fty)
  else .err ("[parseStruct] cannot convert " ++ node.goTypeString ++ " to " ++ fty.toGoString)

/-- parser.go lines 144-145: `reflect.Append(rve, reflect.ValueOf(decoded[i]))`.
`Append` requires the dynamic type to be assignable to the element type
(identity, or an empty-interface element) and panics otherwise. -/
def rawAppend (node : Val) (elemTy : Ty) (acc : List Val) : Res (List Val) :=
  if Ty.beq node.dynTy elemTy ∨ Ty.beq elemTy .iface then .ok (acc ++ [node])
  else .panic "reflect.Append: incompatible type"

/-- parser.go lines 74-88: a pointer field to one of the two special
leaf kinds (reached through the final else branch of the field dispatch,
because line 35 excludes them).  A `*big.Int` field requires the node to
already be a `*big.Int` (comma-ok assertion, line 77) and otherwise
returns the error of line 80; a `*common.Address` field asserts the node
is a string (line 84, panic on mismatch) and parses it. -/
def specialPtrField (node : Val) (ety : Ty) : Res Val :=
  if ety.toGoString = "big.Int" then
    match node with
    | .bigIntPtr m => .ok (.bigIntPtr m)
    | _ => .err ("[parseStruct] expected *big.Int, got " ++ node.goTypeString)
  else
    match node with
    | .str s => .ok (.addressPtr (hexToAddress s))
    | _ => .panic "interface conversion"

/-- parser.go lines 38-40 and 159-161: allocate a nil pointer with a
fresh zero value of the pointee type; a set pointer is kept. -/
def allocPtr (v : Val) (t : Ty) : Val :=
  match v with
  | .ptr none => .ptr (some t.zero)
  | w => w

/-- The pointee of a pointer value after allocation (`field.Interface()`
respectively `pointerVal.Interface()` handed to `parseStruct`).  A
non-pointer value cannot occur for a pointer-typed target; the zero
value stands in for that unreachable case. -/
def ptrPointee (v : Val) (t : Ty) : Val :=
  match v with
  | .ptr (some w) => w
  | _ => t.zero

mutual
/-- parser.go lines 17-108 (`parseStruct`), on the pointee: the struct
kind check of line 24, the field count check of line 28 with its
name-based exemption for the two special leaf kinds, then the field
loop. -/
def parseStruct (d : List Val) (ty : Ty) (v : Val) : Res Val :=
  match ty, v with
  | .struct nm _ ftys, .struct fvs =>
    if d.length ≠ ftys.length ∧ nm ≠ "big.Int" ∧ nm ≠ "common.Address" then
      .err "[parseStruct] number of decoded values does not match number of struct fields"
    else
      (parseStructFields d ftys fvs).map Val.struct
  | .struct _ _ _, _ => .panic "model invariant violation"
  | _, _ => .err "[parseStruct] v must be a struct pointer"
termination_by (Val.sizeList d, Ty.size ty, 8)
decreasing_by
  all_goals first
    | exact lexLt (Val.sizeList_lt_size_list _)
    | exact lexLt (Val.sizeList_tail_lt _ _)
    | exact lexB (Ty.size_lt_ptr _)
    | exact lexB (Ty.sizeList_lt_size_struct _ _ _)
    | exact lexLe (Val.size_head_le _ _) (Ty.size_head_le _ _) (by omega)
    | exact lexLe (Val.size_head_le _ _) (le_refl _) (by omega)
    | exact lexLe (Nat.le_of_eq (Val.sizeList_singleton _)) (le_refl _) (by omega)
    | exact lexLe (le_refl _) (le_refl _) (by omega)

/-- parser.go lines 32-105: the loop `for i := 0; i < rve.NumField(); i++`,
walking the fields and the decoded nodes in lockstep.  The loop runs over
the fields, so a decoded list shorter than the field list hits the
unguarded index `decoded[i]` of line 34 and panics; extra decoded nodes
beyond the field count are ignored. -/
def parseStructFields (d : List Val) (ftys : List Ty) (fvs : List Val) : Res (List Val) :=
  match ftys, fvs, d with
  | [], [], _ => .ok []
  | _ :: _, _ :: _, [] => .panic "index out of range"
  | fty :: ftys', fv :: fvs', node :: d' =>
    (parseField node fty fv).bind fun fv' =>
      (parseStructFields d' ftys' fvs').map fun rest => fv' :: rest
  | _, _, _ => .panic "model invariant violation"
termination_by (Val.sizeList d, Ty.sizeList ftys, 7)
decreasing_by
  all_goals first
    | exact lexLt (Val.sizeList_lt_size_list _)
    | exact lexLt (Val.sizeList_tail_lt _ _)
    | exact lexB (Ty.size_lt_ptr _)
    | exact lexB (Ty.sizeList_lt_size_struct _ _ _)
    | exact lexLe (Val.size_head_le _ _) (Ty.size_head_le _ _) (by omega)
    | exact lexLe (Val.size_head_le _ _) (le_refl _) (by omega)
    | exact lexLe (Nat.le_of_eq (Val.sizeList_singleton _)) (le_refl _) (by omega)
    | exact lexLe (le_refl _) (le_refl _) (by omega)

/-- parser.go lines 33-104: dispatch for one struct field on the field's
declared type.  Pointer fields whose pointee is not one of the two
special leaf kinds take the line 35 branch; pointer fields to the special
leaf kinds fall through to the final else branch (lines 74-88); struct
fields recurse (line 49); slice, array and `common.Address` fields take
the line 53 branch; everything else is a scalar (lines 69-103).  The
`unsupported pointer type` error of line 87 is unreachable (every
non-special pointer took the line 35 branch) and is not modelled. -/
def parseField (node : Val) (fty : Ty) (fv : Val) : Res Val :=
  match fty with
  | .ptr ety =>
    if ety.toGoString = "big.Int" ∨ ety.toGoString = "common.Address" then
      specialPtrField node ety
    else
      match ety, node with
      | .struct sn sf sts, .list xs =>
        ((parseStruct xs (.struct sn sf sts) (ptrPointee fv (.struct sn sf sts))).map
            fun w => Val.ptr (some w)).wrapErr
          ("[parseStruct] error parsing pointer field " ++ (Ty.ptr (Ty.struct sn sf sts)).name)
      | .struct _ _ _, _ => .panic "interface conversion"
      | other, nd =>
        (parsePointer [nd] (.ptr other) fv true).wrapErr
          ("[parseStruct] error parsing pointer field " ++ (Ty.ptr other).name)
  | .struct sn sf sts =>
    match node with
    | .list xs =>
      (parseStruct xs (.struct sn sf sts) fv).wrapErr
        ("[parseStruct] error parsing struct field " ++ (Ty.struct sn sf sts).name)
    | _ => .panic "interface conversion"
  | .slice e => sliceArrayField node (.slice e) fv
  | .array n e => sliceArrayField node (.array n e) fv
  | .address => sliceArrayField node .address fv
  | _ => scalarField node fty
termination_by (Val.size node, Ty.size fty, 6)
decreasing_by
  all_goals first
    | exact lexLt (Val.sizeList_lt_size_list _)
    | exact lexLt (Val.sizeList_tail_lt _ _)
    | exact lexB (Ty.size_lt_ptr _)
    | exact lexB (Ty.sizeList_lt_size_struct _ _ _)
    | exact lexLe (Val.size_head_le _ _) (Ty.size_head_le _ _) (by omega)
    | exact lexLe (Val.size_head_le _ _) (le_refl _) (by omega)
    | exact lexLe (Nat.le_of_eq (Val.sizeList_singleton _)) (le_refl _) (by omega)
    | exact lexLe (le_refl _) (le_refl _) (by omega)

/-- parser.go lines 53-68: a field of slice or array kind.  A byte-slice
node is assigned directly (line 55, guarded by the dynamic type check of
line 54); a string node is parsed as an address when the field's type
name is `common.Address` and otherwise hits the unassignable `Set` of
line 61; any other node is asserted to be a node list (line 64) and
bound by `parseSlice`. -/
def sliceArrayField (node : Val) (fty : Ty) (fv : Val) : Res Val :=
  match node with
  | .bytes bs =>
    if Ty.beq fty (.slice (.num .uint8)) then .ok (.bytes bs)
    else .panic "reflect.Set: unassignable value"
  | .str s =>
    if stripStar fty.toGoString = "common.Address" then .ok (.address (hexToAddress s))
    else .panic "reflect.Set: unassignable value"
  | .list xs =>
    (parseSlice xs fty fv).wrapErr ("[parseStruct] error parsing slice field " ++ fty.name)
  | _ => .panic "interface conversion"
termination_by (Val.size node, Ty.size fty, 5)
decreasing_by
  all_goals first
    | exact lexLt (Val.sizeList_lt_size_list _)
    | exact lexLt (Val.sizeList_tail_lt _ _)
    | exact lexB (Ty.size_lt_ptr _)
    | exact lexB (Ty.sizeList_lt_size_struct _ _ _)
    | exact lexLe (Val.size_head_le _ _) (Ty.size_head_le _ _) (by omega)
    | exact lexLe (Val.size_head_le _ _) (le_refl _) (by omega)
    | exact lexLe (Nat.le_of_eq (Val.sizeList_singleton _)) (le_refl _) (by omega)
    | exact lexLe (le_refl _) (le_refl _) (by omega)

/-- parser.go lines 152-179 (`parsePointer`).  `ty` is the type of the
pointer `pointerVal`, `v` its current value, `canAddr` whether the
`reflect.Value` is addressable (true for the struct fields of line 43,
false for the fresh `reflect.New` pointers of line 126).  An unset
pointer is allocated first (lines 159-161).  The struct case recurses on
the pointee; the slice/array case hands `pointerVal.Addr()` — a pointer
to the pointer — to `parseSlice`, whose pointee is then `ty` itself; the
default case assigns the whole decoded node list to the pointee, which
is assignable only for an empty-interface pointee. -/
def parsePointer (d : List Val) (ty : Ty) (v : Val) (canAddr : Bool) : Res Val :=
  match ty with
  | .ptr ety =>
    match ety with
    | .struct sn sf sts =>
      ((parseStruct d (.struct sn sf sts) (ptrPointee (allocPtr v (.struct sn sf sts))
            (.struct sn sf sts))).map fun w' => Val.ptr (some w')).wrapErr
        ("[parsePointer] error parsing struct field " ++ (Ty.struct sn sf sts).name)
    | .slice e =>
      if canAddr then
        (parseSlice d (.ptr (.slice e)) (allocPtr v (.slice e))).wrapErr
          ("[parsePointer] error parsing slice field " ++ (Ty.slice e).name)
      else .panic "reflect.Value.Addr of unaddressable value"
    | .array n e =>
      if canAddr then
        (parseSlice d (.ptr (.array n e)) (allocPtr v (.array n e))).wrapErr
          ("[parsePointer] error parsing slice field " ++ (Ty.array n e).name)
      else .panic "reflect.Value.Addr of unaddressable value"
    | .address =>
      if canAddr then
        (parseSlice d (.ptr .address) (allocPtr v .address)).wrapErr
          ("[parsePointer] error parsing slice field " ++ Ty.address.name)
      else .panic "reflect.Value.Addr of unaddressable value"
    | _ =>
      if Ty.beq ety .iface then .ok (.ptr (some (.list d)))
      else .panic ("reflect.Set: unassignable value of type [ ]interface to " ++ ety.toGoString)
  | _ => .err "[parsePointer] v must be a pointer"
termination_by (Val.sizeList d, Ty.size ty, 4)
decreasing_by
  all_goals first
    | exact lexLt (Val.sizeList_lt_size_list _)
    | exact lexLt (Val.sizeList_tail_lt _ _)
    | exact lexB (Ty.size_lt_ptr _)
    | exact lexB (Ty.sizeList_lt_size_struct _ _ _)
    | exact lexLe (Val.size_head_le _ _) (Ty.size_head_le _ _) (by omega)
    | exact lexLe (Val.size_head_le _ _) (le_refl _) (by omega)
    | exact lexLe (Nat.le_of_eq (Val.sizeList_singleton _)) (le_refl _) (by omega)
    | exact lexLe (le_refl _) (le_refl _) (by omega)

/-- parser.go lines 110-150 (`parseSlice`), on the pointee: the slice
kind check of line 117 (an array or pointer pointee is rejected), then
the element loop. -/
def parseSlice (d : List Val) (ty : Ty) (v : Val) : Res Val :=
  match ty, v with
  | .slice elemTy, .slice acc => (parseSliceLoop (.slice elemTy) elemTy d acc).map Val.slice
  | .slice _, _ => .panic "model invariant violation"
  | _, _ => .err "[parseSlice] v must be a slice pointer"
termination_by (Val.sizeList d, Ty.size ty, 3)
decreasing_by
  all_goals first
    | exact lexLt (Val.sizeList_lt_size_list _)
    | exact lexLt (Val.sizeList_tail_lt _ _)
    | exact lexB (Ty.size_lt_ptr _)
    | exact lexB (Ty.sizeList_lt_size_struct _ _ _)
    | exact lexLe (Val.size_head_le _ _) (Ty.size_head_le _ _) (by omega)
    | exact lexLe (Val.size_head_le _ _) (le_refl _) (by omega)
    | exact lexLe (Nat.le_of_eq (Val.sizeList_singleton _)) (le_refl _) (by omega)
    | exact lexLe (le_refl _) (le_refl _) (by omega)

/-- parser.go lines 122-147: the loop `for i := range decoded`, threading
the current slice contents through each element step. -/
def parseSliceLoop (ty elemTy : Ty) (d : List Val) (acc : List Val) : Res (List Val) :=
  match d with
  | [] => .ok acc
  | node :: rest =>
    (parseSliceElem ty elemTy node acc).bind fun acc' => parseSliceLoop ty elemTy rest acc'
termination_by (Val.sizeList d, Ty.size ty, 2)
decreasing_by
  all_goals first
    | exact lexLt (Val.sizeList_lt_size_list _)
    | exact lexLt (Val.sizeList_tail_lt _ _)
    | exact lexB (Ty.size_lt_ptr _)
    | exact lexB (Ty.sizeList_lt_size_struct _ _ _)
    | exact lexLe (Val.size_head_le _ _) (Ty.size_head_le _ _) (by omega)
    | exact lexLe (Val.size_head_le _ _) (le_refl _) (by omega)
    | exact lexLe (Nat.le_of_eq (Val.sizeList_singleton _)) (le_refl _) (by omega)
    | exact lexLe (le_refl _) (le_refl _) (by omega)

/-- parser.go lines 123-146: one element step, dispatching on the
declared element type.  A non-special pointer element is bound through a
fresh unaddressable `reflect.New` pointer and appended; a struct element
is bound into a fresh zero value and appended; a slice or array element
recurses into `parseSlice` passing `rve.Addr()` — the same outer slice —
as the destination; anything else (scalars and the special leaf pointers)
is appended raw. -/
def parseSliceElem (ty elemTy : Ty) (node : Val) (acc : List Val) : Res (List Val) :=
  match elemTy with
  | .ptr e =>
    if e.toGoString = "big.Int" ∨ e.toGoString = "common.Address" then
      rawAppend node (.ptr e) acc
    else
      match node with
      | .list xs =>
        ((parsePointer xs (.ptr e) (.ptr (some e.zero)) false).map fun p => acc ++ [p]).wrapErr
          ("[parseSlice] error parsing pointer field " ++ ty.name)
      | _ => .panic "interface conversion"
  | .struct sn sf sts =>
    match node with
    | .list xs =>
      ((parseStruct xs (.struct sn sf sts) (Ty.zero (.struct sn sf sts))).map
          fun w => acc ++ [w]).wrapErr
        ("[parseSlice] error parsing struct field " ++ ty.name)
    | _ => .panic "interface conversion"
  | .slice _ | .array _ _ | .address =>
    match node with
    | .list xs =>
      ((parseSlice xs ty (.slice acc)).wrapErr
          ("[parseSlice] error parsing slice field " ++ ty.name)).bind fun v =>
        match v with
        | .slice acc' => .ok acc'
        | _ => .panic "model invariant violation"
    | _ => .panic "interface conversion"
  | _ => rawAppend node elemTy acc
termination_by (Val.size node, Ty.size ty, 1)
decreasing_by
  all_goals first
    | exact lexLt (Val.sizeList_lt_size_list _)
    | exact lexLt (Val.sizeList_tail_lt _ _)
    | exact lexB (Ty.size_lt_ptr _)
    | exact lexB (Ty.sizeList_lt_size_struct _ _ _)
    | exact lexLe (Val.size_head_le _ _) (Ty.size_head_le _ _) (by omega)
    | exact lexLe (Val.size_head_le _ _) (le_refl _) (by omega)
    | exact lexLe (Nat.le_of_eq (Val.sizeList_singleton _)) (le_refl _) (by omega)
    | exact lexLe (le_refl _) (le_refl _) (by omega)
end

/-- parser.go lines 12-14: the public entry point delegates to
`parseStruct`. -/
def Parse (d : List Val) (ty : Ty) (v : Val) : Res Val := parseStruct d ty v

/-- The hex string of the end-to-end example (an address-sized
identifier: "0xAbC…001" with 40 hex digits). -/
def addrHex : String := "0xAbC0000000000000000000000000000000000001"

/-- The composite target of the end-to-end example:
`{ id: BinaryIdentifier, count: Scalar, values: Sequence Scalar }`. -/
def targetTy : Ty :=
  .struct "abi.Target" ["Id", "Count", "Values"]
    [.address, .num .uint64, .slice (.num .uint64)]

/-- C1: for every parseStruct call on a composite whose decoded node
count differs from the field count and whose type name is not one of the
two special leaf kinds (big.Int, common.Address), binding fails with the
shape-mismatch error; when the composite carries one of the two special
names the count check is skipped and binding proceeds to the field
loop. -/
theorem C1_shape_check (d : List Val) (nm : String) (fns : List String)
    (fts : List Ty) (fvs : List Val)
    (hlen : d.length ≠ fts.length) (hbig : nm ≠ "big.Int") (haddr : nm ≠ "common.Address") :
    parseStruct d (.struct nm fns fts) (.struct fvs) =
      .err "[parseStruct] number of decoded values does not match number of struct fields" ∧
    ∀ (d' : List Val) (nm' : String) (fns' : List String) (fts' : List Ty) (fvs' : List Val),
      (nm' = "big.Int" ∨ nm' = "common.Address") →
      parseStruct d' (.struct nm' fns' fts') (.struct fvs') =
        (parseStructFields d' fts' fvs').map Val.struct := by
  constructor
  · rw [parseStruct.eq_def]
    simp [hlen, hbig, haddr]
  · rintro d' nm' fns' fts' fvs' (rfl | rfl) <;>
      · rw [parseStruct.eq_def]
        simp

/-- C1, witness: a one-field struct bound from an empty node list fails
with the shape-mismatch error. -/
theorem C1_shape_check_witness :
    parseStruct [] (.struct "abi.S" ["A"] [.bool]) (.struct [.bool false]) =
      .err "[parseStruct] number of decoded values does not match number of struct fields" :=
  (C1_shape_check [] "abi.S" ["A"] [.bool] [.bool false]
    (by simp) (by simp) (by simp)).1

set_option maxHeartbeats 2000000 in
/-- C2: binding the node list `["0xAbC…001" (string), 42 (number),
[1, 2, 3] (node list)]` into a fresh `{ id: common.Address,
count: uint64, values: []uint64 }` target succeeds; afterwards `id`
equals the address parsed from the hex string, `count` is 42 and
`values` is `[1, 2, 3]`. -/
theorem C2_end_to_end :
    Parse [Val.str addrHex, Val.num .uint64 42,
           Val.list [Val.num .uint64 1, Val.num .uint64 2, Val.num .uint64 3]]
      targetTy (Ty.zero targetTy) =
    Res.ok (Val.struct [Val.address (hexToAddress addrHex), Val.num .uint64 42,
        Val.slice [Val.num .uint64 1, Val.num .uint64 2, Val.num .uint64 3]]) := by
  simp [Parse, parseStruct.eq_def, parseStructFields.eq_def, parseField.eq_def,
        sliceArrayField.eq_def, scalarField, parseSlice.eq_def, parseSliceLoop.eq_def,
        parseSliceElem.eq_def, parsePointer.eq_def, rawAppend,
        Res.bind, Res.map, Res.wrapErr, Ty.beq.eq_def, Ty.beqList.eq_def, Ty.toGoString,
        Ty.name, NumTy.goStr, Val.dynTy, Val.goTypeString, canConvert, convertVal, stripStar,
        Ty.zero.eq_def, Ty.zeroList.eq_def, NumTy.conv, targetTy, addrHex]

/-- C3, counterexample: the node `int 7`, convertible to the declared
element type `uint64`, is not "assigned raw" as a sequence element — the
raw append panics on the dynamic type mismatch instead of storing the
value. -/
theorem C3_counterexample :
    parseSlice [Val.num .int 7] (.slice (.num .uint64)) (Val.slice []) =
      .panic "reflect.Append: incompatible type" ∧
    parseSlice [Val.num .int 7] (.slice (.num .uint64)) (Val.slice []) ≠
      .ok (Val.slice [Val.num .int 7]) ∧
    parseSlice [Val.num .int 7] (.slice (.num .uint64)) (Val.slice []) ≠
      .ok (Val.slice [Val.num .uint64 7]) := by
  refine ⟨?_, ?_, ?_⟩ <;>
    simp [parseSlice.eq_def, parseSliceLoop.eq_def, parseSliceElem.eq_def, rawAppend,
          Res.bind, Res.map, Ty.beq.eq_def, Val.dynTy, Ty.toGoString, NumTy.goStr]

/-- C3, amended: for the same dynamic value `int 7` against the same
declared type `uint64`, the three scalar-assignment paths diverge: the
struct-field path converts and succeeds; the sequence-element path
attempts no conversion and panics on the mismatched append; the
indirection path attempts no conversion either — it assigns the whole
decoded node list, which panics for a scalar pointee. -/
theorem C3_three_scalar_paths :
    parseStruct [Val.num .int 7] (.struct "abi.S" ["A"] [.num .uint64])
        (Val.struct [Val.num .uint64 0]) =
      .ok (.struct [Val.num .uint64 7]) ∧
    parseSlice [Val.num .int 7] (.slice (.num .uint64)) (Val.slice []) =
      .panic "reflect.Append: incompatible type" ∧
    parsePointer [Val.num .int 7] (.ptr (.num .uint64)) (.ptr none) true =
      .panic "reflect.Set: unassignable value of type [ ]interface to uint64" := by
  refine ⟨?_, ?_, ?_⟩ <;>
    simp [parseStruct.eq_def, parseStructFields.eq_def, parseField.eq_def, scalarField,
          parseSlice.eq_def, parseSliceLoop.eq_def, parseSliceElem.eq_def, rawAppend,
          parsePointer.eq_def, Res.bind, Res.map, Res.wrapErr, Ty.beq.eq_def, Val.dynTy,
          Ty.toGoString, NumTy.goStr, canConvert, convertVal, NumTy.conv, NumTy.signed,
          NumTy.bits, stripStar]

/-- C4, counterexample: the scalar struct field `uint8` bound from the
node `int 300` succeeds with the lossy Go conversion (300 mod 2^8 = 44)
instead of failing with a conversion error, so "lossless conversion or
ConversionFailure" does not hold. -/
theorem C4_counterexample :
    parseStruct [Val.num .int 300] (.struct "abi.S8" ["A"] [.num .uint8])
        (Val.struct [Val.num .uint8 0]) =
      .ok (.struct [Val.num .uint8 44]) ∧ (44 : Int) ≠ 300 := by
  constructor
  · simp [parseStruct.eq_def, parseStructFields.eq_def, parseField.eq_def, scalarField,
          Res.bind, Res.map, Ty.beq.eq_def, Val.dynTy, Ty.toGoString, NumTy.goStr,
          canConvert, convertVal, NumTy.conv, NumTy.signed, NumTy.bits, stripStar]
  · decide

/-- A numeric field's type string never names the binary identifier
type, so the line 89 comparison is false for scalar numeric fields. -/
theorem numField_not_address (w : NumTy) :
    ¬ stripStar w.goStr = "common.Address" := by
  cases w <;> decide

/-- C4, amended: a scalar numeric struct field bound from a numeric node
of a different numeric type succeeds after Go's representation
conversion — truncation modulo the target width, possibly lossy — and
binding fails with the conversion error exactly when the dynamic type is
not convertible to the declared type (for example a string node against
a numeric field). -/
theorem C4_scalar_conversion (w w' : NumTy) (n : Int) (s : String) (hw : w ≠ w') :
    parseStruct [Val.num w n] (.struct "abi.S" ["A"] [.num w'])
        (Val.struct [Val.num w' 0]) =
      .ok (.struct [Val.num w' (w'.conv n)]) ∧
    parseStruct [Val.str s] (.struct "abi.S" ["A"] [.num w'])
        (Val.struct [Val.num w' 0]) =
      .err ("[parseStruct] cannot convert string to " ++ (Ty.num w').toGoString) := by
  have hne : (Ty.num w).beq (Ty.num w') = false := by
    rw [Ty.beq.eq_def]; simp [hw]
  have hne2 : Ty.string.beq (Ty.num w') = false := by
    rw [Ty.beq.eq_def]
  have hstrip := numField_not_address w'
  constructor
  · simp [parseStruct.eq_def, parseStructFields.eq_def, parseField.eq_def, scalarField,
          Res.bind, Res.map, Val.dynTy, Ty.toGoString, canConvert, convertVal, hne, hstrip]
  · simp [parseStruct.eq_def, parseStructFields.eq_def, parseField.eq_def, scalarField,
          Res.bind, Res.map, Val.dynTy, Val.goTypeString, Ty.toGoString, canConvert,
          convertVal, hne2, hstrip]

/-- C4, witness: int 300 into a uint8 field converts to 44. -/
theorem C4_scalar_conversion_witness :
    parseStruct [Val.num .int 300] (.struct "abi.S" ["A"] [.num .uint8])
        (Val.struct [Val.num .uint8 0]) =
      .ok (.struct [Val.num .uint8 (NumTy.uint8.conv 300)]) :=
  (C4_scalar_conversion .int .uint8 300 "" (by decide)).1

/-- A nested sequence element holding an empty node list: the recursion
into the outer sequence appends nothing and returns the outer contents
unchanged. -/
theorem sliceElemNilNested (u t : Ty) (acc : List Val) :
    parseSliceElem (.slice u) (.slice t) (Val.list []) acc = .ok acc := by
  simp [parseSliceElem.eq_def, parseSlice.eq_def, parseSliceLoop.eq_def,
        Res.bind, Res.map, Res.wrapErr]

/-- A nested sequence element holding a scalar node: re-binding the
outer sequence asserts each inner node is again a node list and panics
on the scalar. -/
theorem sliceElemScalarNested (t : Ty) (w : NumTy) (n : Int) (acc : List Val) :
    parseSliceElem (.slice (.slice t)) (.slice t) (Val.list [Val.num w n]) acc =
      .panic "interface conversion" := by
  simp [parseSliceElem.eq_def, parseSlice.eq_def, parseSliceLoop.eq_def,
        Res.bind, Res.map, Res.wrapErr]

/-- C5: the nested sequence-of-sequence step recurses with the same
outer sequence as the append destination: an empty nested node list
leaves the outer sequence untouched (a fresh-inner-sequence semantics
would have appended one empty inner sequence per node), and a nested
node list holding a scalar panics on the node-list assertion taken while
re-binding the outer sequence. -/
theorem C5_nested_sequence_reuse :
    (∀ (t : Ty) (rest acc : List Val),
        parseSliceLoop (.slice (.slice t)) (.slice t) (Val.list [] :: rest) acc =
          parseSliceLoop (.slice (.slice t)) (.slice t) rest acc) ∧
    parseSlice [Val.list [], Val.list []] (.slice (.slice (.num .int))) (Val.slice []) =
      .ok (Val.slice []) ∧
    Res.ok (Val.slice []) ≠ Res.ok (Val.slice [Val.slice [], Val.slice []]) ∧
    ∀ (t : Ty) (w : NumTy) (n : Int) (rest acc : List Val),
      parseSliceLoop (.slice (.slice t)) (.slice t) (Val.list [Val.num w n] :: rest) acc =
        .panic "interface conversion" := by
  refine ⟨?_, ?_, by simp, ?_⟩
  · intro t rest acc
    rw [parseSliceLoop.eq_def]
    simp only [sliceElemNilNested, Res.bind]
  · simp only [parseSlice.eq_def]
    rw [parseSliceLoop.eq_def]
    simp only [sliceElemNilNested, Res.bind]
    rw [parseSliceLoop.eq_def]
    simp only [sliceElemNilNested, Res.bind]
    rw [parseSliceLoop.eq_def]
    simp [Res.map]
  · intro t w n rest acc
    rw [parseSliceLoop.eq_def]
    simp only [sliceElemScalarNested, Res.bind]

/-- C6, counterexample: the Indirection Binder given the singleton node
list `[int 5]` and an unset `*int` target does not assign the inner
value 5 — it assigns the whole node list to the pointee, which panics
because a node list is not assignable to `int`. -/
theorem C6_counterexample :
    parsePointer [Val.num .int 5] (.ptr (.num .int)) (.ptr none) true =
      .panic "reflect.Set: unassignable value of type [ ]interface to int" ∧
    parsePointer [Val.num .int 5] (.ptr (.num .int)) (.ptr none) true ≠
      .ok (.ptr (some (Val.num .int 5))) := by
  constructor <;>
    simp [parsePointer.eq_def, Ty.beq.eq_def, Ty.toGoString, NumTy.goStr, allocPtr]

/-- C6, amended: the Indirection Binder allocates an unset pointer and
dispatches on the pointee: a composite pointee goes to the Composite
Binder with the whole node list; a sequence pointee is handed the
address of the pointer itself, so the Sequence Binder rejects it as an
invalid target (or the Addr call panics when the pointer value is
unaddressable); any other pointee is assigned the entire decoded node
list — succeeding only for an empty-interface pointee and panicking for
a scalar one. -/
theorem C6_indirection_dispatch :
    (∀ (d : List Val) (sn : String) (sf : List String) (sts : List Ty),
        parsePointer d (.ptr (.struct sn sf sts)) (.ptr none) true =
          ((parseStruct d (.struct sn sf sts) (Ty.zero (.struct sn sf sts))).map
              fun w => Val.ptr (some w)).wrapErr
            ("[parsePointer] error parsing struct field " ++ (Ty.struct sn sf sts).name)) ∧
    (∀ (d : List Val) (t : Ty) (v : Val),
        parsePointer d (.ptr (.slice t)) v true =
          .err "[parsePointer] error parsing slice field : [parseSlice] v must be a slice pointer") ∧
    (∀ (d : List Val) (t : Ty) (v : Val),
        parsePointer d (.ptr (.slice t)) v false =
          .panic "reflect.Value.Addr of unaddressable value") ∧
    (∀ (d : List Val) (w : NumTy) (v : Val),
        parsePointer d (.ptr (.num w)) v true =
          .panic ("reflect.Set: unassignable value of type [ ]interface to " ++
            (Ty.num w).toGoString)) ∧
    ∀ (d : List Val) (v : Val),
      parsePointer d (.ptr .iface) v true = .ok (.ptr (some (.list d))) := by
  refine ⟨?_, ?_, ?_, ?_, ?_⟩
  · intro d sn sf sts
    simp [parsePointer.eq_def, allocPtr, ptrPointee]
  · intro d t v
    simp [parsePointer.eq_def, parseSlice.eq_def, Res.wrapErr, Ty.name]
  · intro d t v
    simp [parsePointer.eq_def]
  · intro d w v
    have hb : Ty.beq (.num w) .iface = false := by rw [Ty.beq.eq_def]
    simp [parsePointer.eq_def, hb, Ty.toGoString]
  · intro d v
    have hb : Ty.beq .iface .iface = true := by rw [Ty.beq.eq_def]
    simp [parsePointer.eq_def, hb]

/-- C7: a struct field declared `*big.Int` is bound by reference exactly
when the decoded node already carries the `*big.Int` representation, and
fails with the type-mismatch error for a node of any other dynamic type
(no string or numeric coercion). -/
theorem C7_bigint_ptr_field (v0 : Val) :
    (∀ n : Int,
        parseStruct [Val.bigIntPtr n] (.struct "abi.B" ["X"] [.ptr bigIntTy])
            (Val.struct [v0]) =
          .ok (.struct [Val.bigIntPtr n])) ∧
    ∀ node : Val, (∀ m : Int, node ≠ Val.bigIntPtr m) →
      parseStruct [node] (.struct "abi.B" ["X"] [.ptr bigIntTy]) (Val.struct [v0]) =
        .err ("[parseStruct] expected *big.Int, got " ++ node.goTypeString) := by
  constructor
  · intro n
    simp [parseStruct.eq_def, parseStructFields.eq_def, parseField.eq_def, specialPtrField,
          bigIntTy, Res.bind, Res.map, Ty.toGoString]
  · intro node h
    cases node <;>
      first
        | exact absurd rfl (h _)
        | simp [parseStruct.eq_def, parseStructFields.eq_def, parseField.eq_def,
                specialPtrField, bigIntTy, Res.bind, Res.map, Ty.toGoString]

/-- C7, witness: a string node bound to a `*big.Int` field fails with
the type-mismatch error. -/
theorem C7_bigint_ptr_field_witness :
    parseStruct [Val.str "zz"] (.struct "abi.B" ["X"] [.ptr bigIntTy])
        (Val.struct [Val.ptr none]) =
      .err ("[parseStruct] expected *big.Int, got " ++ (Val.str "zz").goTypeString) :=
  (C7_bigint_ptr_field (Val.ptr none)).2 (Val.str "zz") (fun _ h => Val.noConfusion h)

/-- C8, counterexample: a bind failing inside the slice field named
"Values" returns an error wrapped only with type names — and the
relevant types (the slice and its element seen from the slice binder)
are unnamed, so the message carries no identification of the offending
field at all: not even the letter V of "Values" occurs in it. -/
theorem C8_counterexample :
    Parse [Val.list [Val.list []]]
        (.struct "abi.Outer" ["Values"] [.slice (.struct "abi.Inner" ["A"] [.bool])])
        (Val.struct [Val.slice []]) =
      .err "[parseStruct] error parsing slice field : [parseSlice] error parsing struct field : [parseStruct] number of decoded values does not match number of struct fields" ∧
    'V' ∉ "[parseStruct] error parsing slice field : [parseSlice] error parsing struct field : [parseStruct] number of decoded values does not match number of struct fields".data := by
  constructor
  · simp [Parse, parseStruct.eq_def, parseStructFields.eq_def, parseField.eq_def,
          sliceArrayField.eq_def, parseSlice.eq_def, parseSliceLoop.eq_def,
          parseSliceElem.eq_def, Res.bind, Res.map, Res.wrapErr, Ty.name,
          Ty.zero.eq_def, Ty.zeroList.eq_def]
  · decide

/-- C8, amended: an error from binding a struct-kind field is wrapped
with the field's type name (`reflect.Type.Name()`), not with the field's
declared name; for unnamed field types the annotation is empty. -/
theorem C8_error_wrapping (sn : String) (sf : List String) (sts : List Ty)
    (nodes : List Val) (fv : Val) (e : String)
    (h : parseStruct nodes (.struct sn sf sts) fv = .err e) :
    parseField (.list nodes) (.struct sn sf sts) fv =
      .err ("[parseStruct] error parsing struct field " ++ (Ty.struct sn sf sts).name ++
        ": " ++ e) := by
  rw [parseField.eq_def]
  simp [h, Res.wrapErr]

/-- C8, amended, witness: the wrapping at a concrete failing field. -/
theorem C8_error_wrapping_witness :
    parseField (.list []) (.struct "abi.Inner" ["A"] [.bool]) (.struct [.bool false]) =
      .err ("[parseStruct] error parsing struct field " ++
        (Ty.struct "abi.Inner" ["A"] [.bool]).name ++ ": " ++
        "[parseStruct] number of decoded values does not match number of struct fields") :=
  C8_error_wrapping "abi.Inner" ["A"] [.bool] [] (.struct [.bool false])
    "[parseStruct] number of decoded values does not match number of struct fields"
    (by simp [parseStruct.eq_def])

/-- C10: shape violations that bypass the returned-error discipline, all
reachable: a special leaf composite (exempt from the count check) with
fewer nodes than fields hits the unguarded `decoded[i]` and panics out
of range; a scalar node where a composite field expects a node list
panics on the node-list assertion; a scalar node against a
`*common.Address` field panics on the string assertion of line 84. -/
theorem C10_shape_violation_panics :
    Parse [] bigIntTy (Val.struct [Val.bool false, Val.slice []]) =
      .panic "index out of range" ∧
    Parse [Val.num .int 1] (.struct "abi.O" ["I"] [.struct "abi.Inner" ["A"] [.bool]])
        (Val.struct [Val.struct [Val.bool false]]) = .panic "interface conversion" ∧
    Parse [Val.num .int 1] (.struct "abi.P" ["A"] [.ptr .address])
        (Val.struct [Val.ptr none]) = .panic "interface conversion" := by
  refine ⟨?_, ?_, ?_⟩ <;>
    simp [Parse, parseStruct.eq_def, parseStructFields.eq_def, parseField.eq_def,
          specialPtrField, bigIntTy, Res.bind, Res.map, Res.wrapErr, Ty.toGoString]

/-- A successful raw append extends the accumulator by the node. -/
theorem rawAppend_ok (node : Val) (t : Ty) (acc acc' : List Val)
    (h : rawAppend node t acc = .ok acc') : acc' = acc ++ [node] := by
  unfold rawAppend at h
  split at h
  · injection h with h2; exact h2.symm
  · exact Res.noConfusion h

/-- Inversion for a mapped, error-wrapped result that succeeded. -/
theorem mapWrap_ok {α β : Type} (f : α → β) (c : String) (r : Res α) (b : β)
    (h : (r.map f).wrapErr c = .ok b) : ∃ a, r = .ok a ∧ b = f a := by
  cases r with
  | ok a =>
    refine ⟨a, rfl, ?_⟩
    simp [Res.map, Res.wrapErr] at h
    exact h.symm
  | err e => simp [Res.map, Res.wrapErr] at h
  | panic p => simp [Res.map, Res.wrapErr] at h

/-- Inversion for an error-wrapped result fed into a continuation that
succeeded. -/
theorem wrapBind_ok {α β : Type} (c : String) (r : Res α) (f : α → Res β) (b : β)
    (h : (r.wrapErr c).bind f = .ok b) : ∃ a, r = .ok a ∧ f a = .ok b := by
  cases r with
  | ok a =>
    refine ⟨a, rfl, ?_⟩
    simpa [Res.wrapErr, Res.bind] using h
  | err e => simp [Res.wrapErr, Res.bind] at h
  | panic p => simp [Res.wrapErr, Res.bind] at h

/-- Inversion for a successful sequence bind on a slice value: the
pointee type was a slice and the element loop succeeded. -/
theorem parseSlice_ok_slice (d : List Val) (ty : Ty) (acc : List Val) (v : Val)
    (h : parseSlice d ty (.slice acc) = .ok v) :
    ∃ et l, ty = .slice et ∧ parseSliceLoop (.slice et) et d acc = .ok l ∧ v = .slice l := by
  cases ty
  case slice et =>
    rw [parseSlice.eq_def] at h
    simp at h
    cases hl : parseSliceLoop (.slice et) et d acc with
    | ok l =>
      rw [hl] at h
      simp [Res.map] at h
      exact ⟨et, l, rfl, hl, h.symm⟩
    | err e => rw [hl] at h; simp [Res.map] at h
    | panic p => rw [hl] at h; simp [Res.map] at h
  all_goals (rw [parseSlice.eq_def] at h; simp at h)

/-- Inversion: a successful element step for a non-special pointer
element appended exactly one bound element; for a special leaf pointer
element it appended the raw node. -/
theorem elemStep_ptr_ok (ty e : Ty) (node : Val) (acc acc' : List Val)
    (h : parseSliceElem ty (.ptr e) node acc = .ok acc') : ∃ x, acc' = acc ++ [x] := by
  rw [parseSliceElem.eq_def] at h
  simp at h
  split at h
  · exact ⟨node, rawAppend_ok _ _ _ _ h⟩
  · cases node
    case list xs =>
      obtain ⟨p, hp, hb⟩ := mapWrap_ok _ _ _ _ h
      exact ⟨p, hb⟩
    all_goals exact Res.noConfusion h

/-- Inversion: a successful element step for a struct element appended
exactly one freshly bound struct. -/
theorem elemStep_struct_ok (ty : Ty) (sn : String) (sf : List String) (sts : List Ty)
    (node : Val) (acc acc' : List Val)
    (h : parseSliceElem ty (.struct sn sf sts) node acc = .ok acc') :
    ∃ x, acc' = acc ++ [x] := by
  rw [parseSliceElem.eq_def] at h
  cases node
  case list xs =>
    simp at h
    obtain ⟨w, hw, hb⟩ := mapWrap_ok _ _ _ _ h
    exact ⟨w, hb⟩
  all_goals simp at h

/-- Inversion: a successful element step for a nested sequence element
came from re-binding the outer sequence: the node was a node list, the
outer pointee type a slice, and the whole result is the outer loop's
result on the same accumulator. -/
theorem elemStep_nested_inv (ty elemTy : Ty) (node : Val) (acc acc' : List Val)
    (hk : elemTy.kind = .slice ∨ elemTy.kind = .array)
    (h : parseSliceElem ty elemTy node acc = .ok acc') :
    ∃ xs et l, node = .list xs ∧ ty = .slice et ∧
      parseSliceLoop (.slice et) et xs acc = .ok l ∧ acc' = l := by
  cases elemTy <;> simp [Ty.kind] at hk
  all_goals (
    rw [parseSliceElem.eq_def] at h
    cases node
    case list xs =>
      simp at h
      obtain ⟨v, hv, hf⟩ := wrapBind_ok _ _ _ _ h
      cases v <;> try exact Res.noConfusion hf
      next a =>
      injection hf with ha
      obtain ⟨et, l, hty, hloop, hveq⟩ := parseSlice_ok_slice _ _ _ _ hv
      injection hveq with hal
      exact ⟨xs, et, l, rfl, hty, hloop, by rw [← ha, hal]⟩
    all_goals simp at h)

/-- A successful element step for any element kind other than a nested
sequence appends exactly one element. -/
theorem elemStep_one (ty elemTy : Ty) (node : Val) (acc acc' : List Val)
    (hs : elemTy.kind ≠ .slice) (ha : elemTy.kind ≠ .array)
    (h : parseSliceElem ty elemTy node acc = .ok acc') : ∃ x, acc' = acc ++ [x] := by
  cases elemTy
  case ptr e => exact elemStep_ptr_ok _ _ _ _ _ h
  case struct sn sf sts => exact elemStep_struct_ok _ _ _ _ _ _ _ h
  case slice e => exact absurd rfl hs
  case array k e => exact absurd rfl ha
  case address => exact absurd rfl ha
  all_goals
    (rw [parseSliceElem.eq_def] at h
     simp at h
     exact ⟨_, rawAppend_ok _ _ _ _ h⟩)

/-- Prefix preservation for the element step and the element loop,
jointly by strong induction on the node size: a successful step only
ever appends to the accumulator. -/
theorem slicePrefixAux : ∀ (n : Nat),
    (∀ (ty elemTy : Ty) (node : Val) (acc acc' : List Val), Val.size node ≤ n →
        parseSliceElem ty elemTy node acc = .ok acc' → ∃ t, acc' = acc ++ t) ∧
    (∀ (ty elemTy : Ty) (d acc acc' : List Val), Val.sizeList d ≤ n →
        parseSliceLoop ty elemTy d acc = .ok acc' → ∃ t, acc' = acc ++ t) := by
  intro n
  induction n using Nat.strong_induction_on with
  | _ n ih =>
    have helem : ∀ (ty elemTy : Ty) (node : Val) (acc acc' : List Val), Val.size node ≤ n →
        parseSliceElem ty elemTy node acc = .ok acc' → ∃ t, acc' = acc ++ t := by
      intro ty elemTy node acc acc' hsz hok
      by_cases hnested : elemTy.kind = .slice ∨ elemTy.kind = .array
      · obtain ⟨xs, et, l, hnode, hty, hloop, hacc⟩ :=
          elemStep_nested_inv _ _ _ _ _ hnested hok
        subst hnode
        have hlt : Val.sizeList xs < n := by
          have hh := Val.size_list_eq xs
          omega
        obtain ⟨t, ht⟩ := (ih (Val.sizeList xs) hlt).2 (.slice et) et xs acc l (le_refl _) hloop
        exact ⟨t, by rw [hacc, ht]⟩
      · push_neg at hnested
        obtain ⟨x, hx⟩ := elemStep_one _ _ _ _ _ hnested.1 hnested.2 hok
        exact ⟨[x], hx⟩
    have hloop : ∀ (ty elemTy : Ty) (d acc acc' : List Val), Val.sizeList d ≤ n →
        parseSliceLoop ty elemTy d acc = .ok acc' → ∃ t, acc' = acc ++ t := by
      intro ty elemTy d acc acc' hsz hok
      cases d with
      | nil =>
        rw [parseSliceLoop.eq_def] at hok
        injection hok with h2
        exact ⟨[], by rw [← h2]; simp⟩
      | cons node rest =>
        rw [parseSliceLoop.eq_def] at hok
        simp only [Res.bind] at hok
        cases he : parseSliceElem ty elemTy node acc with
        | ok acc1 =>
          rw [he] at hok
          simp only [Res.bind] at hok
          have h1 : Val.size node ≤ n := le_trans (Val.size_head_le node rest) hsz
          obtain ⟨t0, ht0⟩ := helem ty elemTy node acc acc1 h1 he
          have hlt : Val.sizeList rest < n :=
            lt_of_lt_of_le (Val.sizeList_tail_lt node rest) hsz
          obtain ⟨t1, ht1⟩ := (ih (Val.sizeList rest) hlt).2 ty elemTy rest acc1 acc' (le_refl _) hok
          exact ⟨t0 ++ t1, by rw [ht1, ht0, List.append_assoc]⟩
        | err e => rw [he] at hok; exact Res.noConfusion hok
        | panic p => rw [he] at hok; exact Res.noConfusion hok
    exact ⟨helem, hloop⟩

/-- For element kinds other than nested sequences, a successful loop
appends exactly one element per decoded node. -/
theorem loopLength : ∀ (d : List Val) (ty e : Ty) (acc acc' : List Val),
    e.kind ≠ .slice → e.kind ≠ .array →
    parseSliceLoop ty e d acc = .ok acc' → acc'.length = acc.length + d.length := by
  intro d
  induction d with
  | nil =>
    intro ty e acc acc' hs ha hok
    rw [parseSliceLoop.eq_def] at hok
    injection hok with h2
    simp [← h2]
  | cons node rest ihr =>
    intro ty e acc acc' hs ha hok
    rw [parseSliceLoop.eq_def] at hok
    simp only [Res.bind] at hok
    cases he : parseSliceElem ty e node acc with
    | ok acc1 =>
      rw [he] at hok
      simp only [Res.bind] at hok
      obtain ⟨x, hx⟩ := elemStep_one _ _ _ _ _ hs ha he
      have h2 := ihr ty e acc1 acc' hs ha hok
      subst hx
      simp [List.length_append] at h2 ⊢
      omega
    | err e2 => rw [he] at hok; exact Res.noConfusion hok
    | panic p => rw [he] at hok; exact Res.noConfusion hok

/-- For a scalar numeric element kind, a successful loop appends exactly
the decoded nodes, in order. -/
theorem loopScalarOrder : ∀ (d : List Val) (ty : Ty) (w : NumTy) (acc acc' : List Val),
    parseSliceLoop ty (.num w) d acc = .ok acc' → acc' = acc ++ d := by
  intro d
  induction d with
  | nil =>
    intro ty w acc acc' hok
    rw [parseSliceLoop.eq_def] at hok
    injection hok with h2
    simp [← h2]
  | cons node rest ihr =>
    intro ty w acc acc' hok
    rw [parseSliceLoop.eq_def] at hok
    simp only [Res.bind] at hok
    cases he : parseSliceElem ty (.num w) node acc with
    | ok acc1 =>
      rw [he] at hok
      simp only [Res.bind] at hok
      rw [parseSliceElem.eq_def] at he
      simp at he
      have hx := rawAppend_ok _ _ _ _ he
      have h2 := ihr ty w acc1 acc' hok
      simp [h2, hx]
    | err e2 => rw [he] at hok; exact Res.noConfusion hok
    | panic p => rw [he] at hok; exact Res.noConfusion hok

/-- C9, amended: a successful Sequence Binder call preserves the
existing elements as a prefix (it never shrinks or reorders them); for
every element kind other than a nested sequence it appends exactly one
element per decoded node, and for a scalar numeric element kind the
appended elements are exactly the decoded nodes in node order.  (For a
nested sequence element a node can contribute any number of elements,
zero included.) -/
theorem C9_sequence_growth :
    (∀ (ty elemTy : Ty) (d acc acc' : List Val),
        parseSliceLoop ty elemTy d acc = .ok acc' → ∃ t, acc' = acc ++ t) ∧
    (∀ (d : List Val) (t : Ty) (acc : List Val) (v : Val),
        parseSlice d (.slice t) (.slice acc) = .ok v → ∃ tail, v = .slice (acc ++ tail)) ∧
    (∀ (ty e : Ty) (d acc acc' : List Val), e.kind ≠ .slice → e.kind ≠ .array →
        parseSliceLoop ty e d acc = .ok acc' → acc'.length = acc.length + d.length) ∧
    (∀ (ty : Ty) (w : NumTy) (d acc acc' : List Val),
        parseSliceLoop ty (.num w) d acc = .ok acc' → acc' = acc ++ d) := by
  refine ⟨?_, ?_, ?_, ?_⟩
  · intro ty elemTy d acc acc' hok
    exact (slicePrefixAux (Val.sizeList d)).2 ty elemTy d acc acc' (le_refl _) hok
  · intro d t acc v hok
    obtain ⟨et, l, hty, hloop, hveq⟩ := parseSlice_ok_slice _ _ _ _ hok
    obtain ⟨tail, htl⟩ := (slicePrefixAux (Val.sizeList d)).2 _ _ _ _ _ (le_refl _) hloop
    exact ⟨tail, by rw [hveq, htl]⟩
  · intro ty e d acc acc' hs ha hok
    exact loopLength d ty e acc acc' hs ha hok
  · intro ty w d acc acc' hok
    exact loopScalarOrder d ty w acc acc' hok

/-- C9, counterexample: one decoded node bound into a
sequence-of-sequence target appends zero elements, not exactly one per
node — the nested recursion reuses the outer sequence and an empty
nested list contributes nothing. -/
theorem C9_counterexample :
    parseSlice [Val.list []] (.slice (.slice (.num .int))) (Val.slice []) =
      .ok (Val.slice []) ∧
    ([] : List Val).length ≠ [Val.list []].length := by
  constructor
  · simp only [parseSlice.eq_def]
    rw [parseSliceLoop.eq_def]
    simp only [sliceElemNilNested, Res.bind]
    rw [parseSliceLoop.eq_def]
    simp [Res.map]
  · decide

/-- C9, witness: a concrete successful loop exercising the exact-order
statement. -/
theorem C9_sequence_growth_witness :
    [Val.num NumTy.int 1] = ([] : List Val) ++ [Val.num NumTy.int 1] :=
  C9_sequence_growth.2.2.2 (.slice (.num .int)) .int [Val.num .int 1] [] [Val.num .int 1]
    (by simp [parseSliceLoop.eq_def, parseSliceElem.eq_def, rawAppend, Res.bind,
              Ty.beq.eq_def, Val.dynTy])
